import Mathlib

/-!
Shallow embedding of the expression/value subsystem of `rust-query`
(`src/value.rs`): the type classification layer, the expression
representation, the alias/scope builder that deduplicates joins and
aggregate subqueries, the conversion layer, and the migration bridge.

Stateful code (the `ValueBuilder` holding a shared `MySelect`) is embedded
by explicit state passing: every operation that may allocate an alias takes
a `MySelect` and returns the updated `MySelect` alongside its result.
-/

namespace RustQuery

/-- Opaque carrier for a Rust `f64` bit pattern.  The code under scrutiny
never computes with floating point values (it only stores, renders and
decodes them), so they are modelled as opaque tokens compared by identity. -/
structure F64 where
  bits : Nat
deriving DecidableEq, Repr

/-- Embeds `sea_query::Value`: a typed SQL literal.  Each storage category carries
an `Option` payload; `none` is the typed SQL NULL of that category
(`<T as Nullable>::null()`). -/
inductive SqlValue where
  | bigInt (v : Option Int)
  | double (v : Option F64)
  | strVal (v : Option String)
  | bytes (v : Option (List Nat))
  | boolVal (v : Option Bool)
deriving DecidableEq, Repr

/-- Embeds `MyAlias` (from `alias.rs`): a freshly generated SQL alias,
identified by the counter value that produced it. -/
structure MyAlias where
  idx : Nat
deriving DecidableEq, Repr

/-- Modelled from the spec: `Field` (from `alias.rs`, not under `src/`) is
the key of one join/aggregate condition; `value.rs` only ever builds the
string-named variant `Field::Str`. -/
inductive Field where
  | str (s : String)
deriving DecidableEq, Repr

/-- Embeds `sea_query::SelectStatement`: an opaque subquery statement, compared
structurally (the dedup key for aggregates is the literal statement). -/
structure SelectStatement where
  rendered : String
deriving DecidableEq, Repr

/-- Embeds `sea_query::SimpleExpr`, restricted to the shapes `value.rs` produces:
typed literals/NULLs, a column projected from an alias
(`Expr::col((alias, col))`), and a raw column such as `unixepoch(\x27now\x27)`. -/
inductive SimpleExpr where
  | value (v : SqlValue)
  | col (table : MyAlias) (column : String)
  | rawCol (raw : String)
deriving DecidableEq, Repr

/-- Embeds `ast::SourceKind`: an implicit join against a named table, or an
aggregate subquery statement. -/
inductive SourceKind where
  | implicit (table : String)
  | aggregate (stmt : SelectStatement)
deriving DecidableEq, Repr

/-- Embeds `ast::Source`: the Source Specification, the structural dedup key —
a kind together with the `(field, expression)` condition list. -/
structure Source where
  kind : SourceKind
  conds : List (Field × SimpleExpr)
deriving DecidableEq, Repr

/-- The Builder Context state behind `ValueBuilder`'s shared `MySelect`:
the scope's alias counter and the insertion-ordered Source→Alias cache
(`extra`), which doubles as the record of joins/aggregates to emit. -/
structure MySelect where
  nextAlias : Nat
  extra : List (Source × MyAlias)
deriving DecidableEq, Repr

/-- A fresh Builder Context, as at the start of one query-construction
session. -/
def MySelect.empty : MySelect := ⟨0, []⟩

/-- First-occurrence lookup of a Source Specification in the cache. -/
def findAlias (s : Source) : List (Source × MyAlias) → Option MyAlias
  | [] => none
  | (s', a) :: rest => if s' = s then some a else findAlias s rest

/-- Modelled from the spec: `scope.new_alias()` (from `alias.rs`, not under
`src/`) hands out the next value of a monotonically increasing per-session
counter. -/
def Scope.new_alias (m : MySelect) : MyAlias × MySelect :=
  (⟨m.nextAlias⟩, { m with nextAlias := m.nextAlias + 1 })

/-- Modelled from the spec: `extra.get_or_init(source, new_alias)` (from
`ast.rs`, not under `src/`) looks the Source Specification up by structural
equality; on a hit it returns the cached alias unchanged, on a miss it
allocates a fresh alias, appends the entry in first-seen order, and
returns it. -/
def MySelect.get_or_init (m : MySelect) (s : Source) : MyAlias × MySelect :=
  match findAlias s m.extra with
  | some a => (a, m)
  | none =>
    let (a, m') := Scope.new_alias m
    (a, { m' with extra := m'.extra ++ [(s, a)] })

/-- The compile-time constants of a `Table` impl used by `value.rs`:
the table name `T::NAME` and identity column `T::ID`. -/
structure TableInfo where
  NAME : String
  ID : String
deriving DecidableEq, Repr

/-- The Source Specification built by `ValueBuilder::get_join::<T>`:
implicit join to `T::NAME` with the single condition `T::ID = expr`. -/
def joinSource (T : TableInfo) (expr : SimpleExpr) : Source :=
  ⟨.implicit T.NAME, [(.str T.ID, expr)]⟩

/-- The Source Specification built by `ValueBuilder::get_aggr`. -/
def aggrSource (aggr : SelectStatement) (conds : List (Field × SimpleExpr)) : Source :=
  ⟨.aggregate aggr, conds⟩

/-- The Source Specification built by `ValueBuilder::get_unique::<T>`:
implicit join to `T::NAME` with the given conditions, each field name
wrapped as `Field::Str`. -/
def uniqueSource (T : TableInfo) (conds : List (String × SimpleExpr)) : Source :=
  ⟨.implicit T.NAME, conds.map fun x => (Field.str x.1, x.2)⟩

/-- Embeds `ValueBuilder::get_aggr` (value.rs lines 25–36). -/
def ValueBuilder.get_aggr (aggr : SelectStatement) (conds : List (Field × SimpleExpr))
    (m : MySelect) : MyAlias × MySelect :=
  m.get_or_init (aggrSource aggr conds)

/-- Embeds `ValueBuilder::get_join::<T>` (value.rs lines 38–45). -/
def ValueBuilder.get_join (T : TableInfo) (expr : SimpleExpr) (m : MySelect) :
    MyAlias × MySelect :=
  m.get_or_init (joinSource T expr)

/-- Embeds `ValueBuilder::get_unique::<T>` (value.rs lines 47–56): dedup through
the same cache, then project the identity column from the alias. -/
def ValueBuilder.get_unique (T : TableInfo) (conds : List (String × SimpleExpr))
    (m : MySelect) : SimpleExpr × MySelect :=
  let (table, m') := m.get_or_init (uniqueSource T conds)
  (SimpleExpr.col table T.ID, m')

/-- The `Typed` contract of an expression node (`value.rs` line 92): the
node can render itself to a SQL expression given the Builder Context.
`Rc<dyn Typed>` dynamic dispatch is embedded as a bare rendering function;
mutation of the shared `MySelect` becomes explicit state passing. -/
structure DynTyped where
  build_expr : MySelect → SimpleExpr × MySelect

/-- The default `Typed::build_table` (value.rs lines 98–103): compute the
scalar SQL expression, then delegate to `get_join::<T>`. -/
def build_table (T : TableInfo) (n : DynTyped) (m : MySelect) : MyAlias × MySelect :=
  let (e, m1) := n.build_expr m
  ValueBuilder.get_join T e m1

/-- Embeds `DynTyped::erase` (value.rs lines 489–493): forget the node type,
keeping only the rendering closure. -/
def DynTyped.erase (n : DynTyped) : MySelect → SimpleExpr × MySelect :=
  n.build_expr

/-- Embeds `MigratedExpr`'s `Typed` impl (value.rs lines 495–505): rendering just
invokes the stored prior closure. -/
def migratedBuildExpr (prev : MySelect → SimpleExpr × MySelect) : DynTyped :=
  ⟨prev⟩

/-- Embeds `Expr::_migrate` (value.rs lines 402–411): wrap the prior-schema
expression's erased rendering closure in a `MigratedExpr` node. -/
def Expr_migrate (prev : DynTyped) : DynTyped :=
  migratedBuildExpr prev.erase

/-- Embeds `Typed for i64` (value.rs lines 190–195): renders to a big-integer
literal. -/
def i64Typed (v : Int) : DynTyped :=
  ⟨fun m => (.value (.bigInt (some v)), m)⟩

/-- Embeds `Typed for f64` (value.rs lines 204–209). -/
def f64Typed (v : F64) : DynTyped :=
  ⟨fun m => (.value (.double (some v)), m)⟩

/-- Embeds `Typed for String` (value.rs lines 134–139). -/
def stringTyped (s : String) : DynTyped :=
  ⟨fun m => (.value (.strVal (some s)), m)⟩

/-- Embeds `Typed for Vec<u8>` (value.rs lines 155–160). -/
def blobTyped (b : List Nat) : DynTyped :=
  ⟨fun m => (.value (.bytes (some b)), m)⟩

/-- Embeds `Typed for bool` (value.rs lines 176–181). -/
def boolTyped (b : Bool) : DynTyped :=
  ⟨fun m => (.value (.boolVal (some b)), m)⟩

/-- Embeds `Typed for UnixEpoch` (value.rs lines 248–253). -/
def unixEpochTyped : DynTyped :=
  ⟨fun m => (.rawCol "unixepoch(\x27now\x27)", m)⟩

/-- Embeds `Typed for Option<T>` (value.rs lines 115–123): render the inner node
when present, else the typed NULL `X::Sql::null()` of the inner type's
storage form (passed here as `nullExpr`, since it is determined by the
type `X`, not by the node). -/
def optionBuildExpr (nullExpr : SimpleExpr) (inner : Option DynTyped) : DynTyped :=
  ⟨fun m =>
    match inner with
    | some x => x.build_expr m
    | none => (nullExpr, m)⟩

/-- Embeds `<i64 as Nullable>::null().into()`. -/
def i64NullExpr : SimpleExpr := .value (.bigInt none)

/-- Embeds `<f64 as Nullable>::null().into()`. -/
def f64NullExpr : SimpleExpr := .value (.double none)

/-- Embeds `<String as Nullable>::null().into()`. -/
def stringNullExpr : SimpleExpr := .value (.strVal none)

/-- Embeds `<Vec<u8> as Nullable>::null().into()`. -/
def blobNullExpr : SimpleExpr := .value (.bytes none)

/-- Embeds `<bool as Nullable>::null().into()`. -/
def boolNullExpr : SimpleExpr := .value (.boolVal none)

/-- Embeds `assume_expr` (value.rs lines 423–426): explicitly re-type a nullable
expression as non-nullable; rendering is unchanged. -/
def assume_expr (e : DynTyped) : DynTyped :=
  ⟨fun m => e.build_expr m⟩

/- ## Decode layer: rusqlite raw values and `SecretFromSql` -/

/-- Embeds `rusqlite::types::Type`: the runtime storage class of a raw value. -/
inductive RusqliteType where
  | null
  | integer
  | real
  | text
  | blob
deriving DecidableEq, Repr

/-- Embeds `rusqlite::types::ValueRef`: a raw stored column value as handed to
`SecretFromSql::from_sql` by the row-decoding layer. -/
inductive ValueRef where
  | null
  | integer (i : Int)
  | real (r : F64)
  | text (s : String)
  | blob (b : List Nat)
deriving DecidableEq, Repr

/-- Embeds `ValueRef::data_type()`. -/
def ValueRef.data_type : ValueRef → RusqliteType
  | .null => .null
  | .integer _ => .integer
  | .real _ => .real
  | .text _ => .text
  | .blob _ => .blob

/-- Embeds `rusqlite::types::FromSqlError`, restricted to the variant these
decoders produce: the raw value's storage class does not match. -/
inductive DecodeError where
  | invalidType
deriving DecidableEq, Repr

/-- Embeds `ValueRef::as_i64`: the integral value, or `InvalidType` for any other
storage class. -/
def ValueRef.as_i64 : ValueRef → Except DecodeError Int
  | .integer i => .ok i
  | _ => .error .invalidType

/-- Embeds `ValueRef::as_f64`: the floating value, or `InvalidType` for any other
storage class. -/
def ValueRef.as_f64 : ValueRef → Except DecodeError F64
  | .real r => .ok r
  | _ => .error .invalidType

/-- Embeds `ValueRef::as_str` followed by `.to_owned()`. -/
def ValueRef.as_str : ValueRef → Except DecodeError String
  | .text s => .ok s
  | _ => .error .invalidType

/-- Embeds `ValueRef::as_blob` followed by `.to_owned()`. -/
def ValueRef.as_blob : ValueRef → Except DecodeError (List Nat)
  | .blob b => .ok b
  | _ => .error .invalidType

/-- Embeds `SecretFromSql for i64` (value.rs lines 304–308). -/
def i64_from_sql (v : ValueRef) : Except DecodeError Int :=
  v.as_i64

/-- Embeds `SecretFromSql for f64` (value.rs lines 317–321). -/
def f64_from_sql (v : ValueRef) : Except DecodeError F64 :=
  v.as_f64

/-- Embeds `SecretFromSql for bool` (value.rs lines 330–334):
`Ok(value.as_i64()? != 0)`. -/
def bool_from_sql (v : ValueRef) : Except DecodeError Bool :=
  (v.as_i64).map fun i => decide (i ≠ 0)

/-- Embeds `SecretFromSql for String` (value.rs lines 344–348). -/
def string_from_sql (v : ValueRef) : Except DecodeError String :=
  v.as_str

/-- Embeds `SecretFromSql for Vec<u8>` (value.rs lines 358–362). -/
def blob_from_sql (v : ValueRef) : Except DecodeError (List Nat) :=
  v.as_blob

/-- Embeds `SecretFromSql for TableRow` (value.rs lines 284–295): a table row
reference decodes from the stored row id via `as_i64`. -/
def tableRow_from_sql (v : ValueRef) : Except DecodeError Int :=
  v.as_i64

/-- Embeds `SecretFromSql for Option<T>` (value.rs lines 373–381): absent exactly
on a SQL NULL, otherwise delegate to the inner decoder `f`. -/
def option_from_sql {α : Type} (f : ValueRef → Except DecodeError α)
    (v : ValueRef) : Except DecodeError (Option α) :=
  if v.data_type = RusqliteType.null then .ok none
  else (f v).map some

/-- The raw stored value the storage engine hands back for a literal
`sea_query::Value` written into a column (spec §6 boundary: typed NULLs
store as SQL NULL, booleans store as the integers 0/1, everything else
stores as its own class). -/
def SqlValue.toValueRef : SqlValue → ValueRef
  | .bigInt (some i) => .integer i
  | .bigInt none => .null
  | .double (some r) => .real r
  | .double none => .null
  | .strVal (some s) => .text s
  | .strVal none => .null
  | .bytes (some b) => .blob b
  | .bytes none => .null
  | .boolVal (some b) => .integer (if b then 1 else 0)
  | .boolVal none => .null

/- ## Type classification constants (`MyTyp`) and the conversion layer -/

/-- Embeds `hash::ColumnType`: the SQL storage category of a Domain Value Type. -/
inductive ColumnType where
  | integer
  | float
  | string
  | blob
deriving DecidableEq, Repr

/-- The storage category a `sea_query::Value` belongs to (booleans are
integer-category in SQLite). -/
def SqlValue.category : SqlValue → ColumnType
  | .bigInt _ => .integer
  | .double _ => .float
  | .strVal _ => .string
  | .bytes _ => .blob
  | .boolVal _ => .integer

/-- The compile-time constants of a `MyTyp` impl: nullability flag,
storage category and optional foreign-key descriptor. -/
structure MyTypConsts where
  NULLABLE : Bool
  TYP : ColumnType
  FK : Option (String × String)
deriving DecidableEq, Repr

/-- Embeds `MyTyp for i64` (value.rs lines 297–302). -/
def i64MyTyp : MyTypConsts := ⟨false, .integer, none⟩

/-- Embeds `MyTyp for f64` (value.rs lines 310–315). -/
def f64MyTyp : MyTypConsts := ⟨false, .float, none⟩

/-- Embeds `MyTyp for bool` (value.rs lines 323–328). -/
def boolMyTyp : MyTypConsts := ⟨false, .integer, none⟩

/-- Embeds `MyTyp for String` (value.rs lines 336–341). -/
def stringMyTyp : MyTypConsts := ⟨false, .string, none⟩

/-- Embeds `MyTyp for Vec<u8>` (value.rs lines 350–355). -/
def blobMyTyp : MyTypConsts := ⟨false, .blob, none⟩

/-- Embeds `MyTyp for T: Table` (value.rs lines 276–282). -/
def tableMyTyp (T : TableInfo) : MyTypConsts := ⟨false, .integer, some (T.NAME, T.ID)⟩

/-- Embeds `MyTyp for Option<T>` (value.rs lines 364–371): NULLABLE is set, the
storage category and foreign-key descriptor are inherited. -/
def optionMyTyp (t : MyTypConsts) : MyTypConsts := ⟨true, t.TYP, t.FK⟩

/-- The `IntoExpr` impls of `value.rs`, one constructor per impl: the
native scalars (by value and by reference), the current-time pseudo-value,
the nullable wrapper, the reference forwarder, and the identity conversion
of an already-built `Expr` of known type. -/
inductive ConvSource where
  | stringV
  | strRef
  | vecU8
  | sliceU8
  | boolV
  | i64V
  | f64V
  | unixEpoch
  | option (c : ConvSource)
  | ref (c : ConvSource)
  | expr (t : MyTypConsts)
deriving DecidableEq, Repr

/-- The `type Typ` each `IntoExpr` impl declares, read off impl by impl. -/
def convTyp : ConvSource → MyTypConsts
  | .stringV => stringMyTyp
  | .strRef => stringMyTyp
  | .vecU8 => blobMyTyp
  | .sliceU8 => blobMyTyp
  | .boolV => boolMyTyp
  | .i64V => i64MyTyp
  | .f64V => f64MyTyp
  | .unixEpoch => i64MyTyp
  | .option c => optionMyTyp (convTyp c)
  | .ref c => convTyp c
  | .expr t => t

/-- Where nullability can come from in a conversion source: an `Option`
wrapper, or an already-nullable expression type, nothing else. -/
def nullableSource : ConvSource → Bool
  | .option _ => true
  | .ref c => nullableSource c
  | .expr t => t.NULLABLE
  | _ => false

/- ## Cache bookkeeping -/

/-- How many cache entries carry a given Source Specification: the number
of times its join/aggregate would be emitted in the final statement. -/
def countSource (s : Source) (l : List (Source × MyAlias)) : Nat :=
  l.countP fun p => decide (p.1 = s)

/-- One of the three alias-allocating entry points of the `ValueBuilder`,
with the Source Specification it builds. -/
inductive Request where
  | join (T : TableInfo) (e : SimpleExpr)
  | aggr (stmt : SelectStatement) (conds : List (Field × SimpleExpr))
  | unique (T : TableInfo) (conds : List (String × SimpleExpr))

/-- The Source Specification each entry point hands to the cache. -/
def Request.source : Request → Source
  | .join T e => joinSource T e
  | .aggr stmt conds => aggrSource stmt conds
  | .unique T conds => uniqueSource T conds

/-- The alias each entry point receives from the cache (`get_join` and
`get_aggr` return it directly; `get_unique` projects the identity column
from it). -/
def Request.alias_of : Request → MySelect → MyAlias × MySelect
  | .join T e, m => ValueBuilder.get_join T e m
  | .aggr stmt conds, m => ValueBuilder.get_aggr stmt conds m
  | .unique T conds, m => m.get_or_init (uniqueSource T conds)

/-- Well-formedness of a Builder Context: every cached alias predates the
counter, no Source Specification occurs twice, and the cached aliases are
strictly increasing in emission order. -/
def MySelect.WF (m : MySelect) : Prop :=
  (∀ p ∈ m.extra, p.2.idx < m.nextAlias) ∧
  (m.extra.map Prod.fst).Nodup ∧
  (m.extra.map fun p => p.2.idx).Pairwise (· < ·)

theorem wf_empty : MySelect.empty.WF := by
  refine ⟨?_, ?_, ?_⟩ <;> simp [MySelect.empty, MySelect.WF]

theorem findAlias_mem {s : Source} {l : List (Source × MyAlias)} {a : MyAlias}
    (h : findAlias s l = some a) : (s, a) ∈ l := by
  induction l with
  | nil => simp [findAlias] at h
  | cons p rest ih =>
    obtain ⟨ps, pa⟩ := p
    simp only [findAlias] at h
    by_cases hp : ps = s
    · rw [if_pos hp] at h
      cases h
      subst hp
      exact List.mem_cons_self _ _
    · rw [if_neg hp] at h
      exact List.mem_cons_of_mem _ (ih h)

theorem findAlias_none_not_key {s : Source} {l : List (Source × MyAlias)}
    (h : findAlias s l = none) : s ∉ l.map Prod.fst := by
  induction l with
  | nil => simp
  | cons p rest ih =>
    simp only [findAlias] at h
    by_cases hp : p.1 = s
    · rw [if_pos hp] at h; cases h
    · rw [if_neg hp] at h
      simp only [List.map_cons, List.mem_cons]
      rintro (rfl | hmem)
      · exact hp rfl
      · exact ih h hmem

theorem findAlias_append_none {s : Source} {l1 : List (Source × MyAlias)}
    (l2 : List (Source × MyAlias)) (h : findAlias s l1 = none) :
    findAlias s (l1 ++ l2) = findAlias s l2 := by
  induction l1 with
  | nil => simp
  | cons p rest ih =>
    simp only [findAlias] at h ⊢
    by_cases hp : p.1 = s
    · rw [if_pos hp] at h; cases h
    · rw [if_neg hp] at h ⊢
      exact ih h

theorem countSource_eq_zero {s : Source} {l : List (Source × MyAlias)} :
    countSource s l = 0 ↔ findAlias s l = none := by
  induction l with
  | nil => simp [countSource, findAlias]
  | cons p rest ih =>
    simp only [countSource, List.countP_cons, findAlias] at ih ⊢
    by_cases hp : p.1 = s
    · simp [hp]
    · simp [hp, ih]

theorem get_or_init_hit {m : MySelect} {s : Source} {a : MyAlias}
    (h : findAlias s m.extra = some a) : m.get_or_init s = (a, m) := by
  simp [MySelect.get_or_init, h]

theorem get_or_init_miss {m : MySelect} {s : Source}
    (h : findAlias s m.extra = none) :
    m.get_or_init s =
      (⟨m.nextAlias⟩, ⟨m.nextAlias + 1, m.extra ++ [(s, ⟨m.nextAlias⟩)]⟩) := by
  simp [MySelect.get_or_init, h, Scope.new_alias]

theorem findAlias_after (m : MySelect) (s : Source) :
    findAlias s (m.get_or_init s).2.extra = some (m.get_or_init s).1 := by
  cases h : findAlias s m.extra with
  | some a => rw [get_or_init_hit h]; exact h
  | none =>
    rw [get_or_init_miss h]
    simp only
    rw [findAlias_append_none _ h]
    simp [findAlias]

theorem get_or_init_idem (m : MySelect) (s : Source) :
    (m.get_or_init s).2.get_or_init s = ((m.get_or_init s).1, (m.get_or_init s).2) :=
  get_or_init_hit (findAlias_after m s)

theorem countSource_after_miss {m : MySelect} {s : Source}
    (h : findAlias s m.extra = none) :
    countSource s (m.get_or_init s).2.extra = 1 := by
  rw [get_or_init_miss h]
  simp only [countSource, List.countP_append]
  rw [show m.extra.countP (fun p => decide (p.1 = s)) = 0 from countSource_eq_zero.mpr h]
  simp [List.countP_cons]

theorem wf_get_or_init {m : MySelect} (s : Source) (hwf : m.WF) :
    (m.get_or_init s).2.WF := by
  obtain ⟨hbound, hkeys, hincr⟩ := hwf
  cases h : findAlias s m.extra with
  | some a => rw [get_or_init_hit h]; exact ⟨hbound, hkeys, hincr⟩
  | none =>
    rw [get_or_init_miss h]
    refine ⟨?_, ?_, ?_⟩
    · intro p hp
      rcases List.mem_append.mp hp with hl | hr
      · exact Nat.lt_succ_of_lt (hbound p hl)
      · simp only [List.mem_singleton] at hr
        subst hr
        exact Nat.lt_succ_self _
    · simp only [List.map_append, List.map_cons, List.map_nil]
      rw [List.nodup_append]
      refine ⟨hkeys, List.nodup_singleton _, ?_⟩
      intro x hx
      simp only [List.mem_singleton]
      intro hxs
      subst hxs
      exact findAlias_none_not_key h hx
    · simp only [List.map_append, List.map_cons, List.map_nil]
      rw [List.pairwise_append]
      refine ⟨hincr, List.pairwise_singleton _ _, ?_⟩
      intro x hx y hy
      simp only [List.mem_singleton] at hy
      subst hy
      rcases List.mem_map.mp hx with ⟨p, hp, rfl⟩
      exact hbound p hp

theorem alias_mem_lt {m : MySelect} {p : Source × MyAlias} (hwf : m.WF)
    (hp : p ∈ m.extra) : p.2.idx < m.nextAlias :=
  hwf.1 p hp

theorem alias_inj {m : MySelect} (hwf : m.WF) {p q : Source × MyAlias}
    (hp : p ∈ m.extra) (hq : q ∈ m.extra) (h : p.2 = q.2) : p = q := by
  have hnd : (m.extra.map fun r => r.2.idx).Nodup :=
    hwf.2.2.imp (fun hlt => Nat.ne_of_lt hlt)
  exact List.inj_on_of_nodup_map hnd hp hq (by rw [h])

theorem alias_of_eq (r : Request) (m : MySelect) :
    r.alias_of m = m.get_or_init r.source := by
  cases r <;> rfl

theorem get_or_init_miss_fst {m : MySelect} {s : Source}
    (h : findAlias s m.extra = none) : (m.get_or_init s).1 = ⟨m.nextAlias⟩ := by
  rw [get_or_init_miss h]

theorem get_or_init_miss_extra {m : MySelect} {s : Source}
    (h : findAlias s m.extra = none) :
    (m.get_or_init s).2.extra = m.extra ++ [(s, ⟨m.nextAlias⟩)] := by
  rw [get_or_init_miss h]

theorem get_or_init_miss_next {m : MySelect} {s : Source}
    (h : findAlias s m.extra = none) :
    (m.get_or_init s).2.nextAlias = m.nextAlias + 1 := by
  rw [get_or_init_miss h]

theorem get_or_init_distinct {m : MySelect} {s1 s2 : Source} (hwf : m.WF)
    (hne : s1 ≠ s2) :
    (m.get_or_init s1).1 ≠ ((m.get_or_init s1).2.get_or_init s2).1 := by
  cases h1 : findAlias s1 m.extra with
  | some a1 =>
    have e1 : m.get_or_init s1 = (a1, m) := get_or_init_hit h1
    rw [e1]
    cases h2 : findAlias s2 m.extra with
    | some a2 =>
      rw [get_or_init_hit h2]
      intro hEq
      exact hne
        (congrArg Prod.fst (alias_inj hwf (findAlias_mem h1) (findAlias_mem h2) hEq))
    | none =>
      rw [get_or_init_miss_fst h2]
      intro hEq
      have hlt : a1.idx < m.nextAlias := hwf.1 _ (findAlias_mem h1)
      have hEq' : a1 = (⟨m.nextAlias⟩ : MyAlias) := hEq
      rw [hEq'] at hlt
      exact Nat.lt_irrefl _ hlt
  | none =>
    cases h2 : findAlias s2 (m.get_or_init s1).2.extra with
    | some a2 =>
      rw [get_or_init_hit h2, get_or_init_miss_fst h1]
      intro hEq
      have hmem := findAlias_mem h2
      rw [get_or_init_miss_extra h1] at hmem
      rcases List.mem_append.mp hmem with hl | hr
      · have hlt : a2.idx < m.nextAlias := hwf.1 _ hl
        have hEq' : (⟨m.nextAlias⟩ : MyAlias) = a2 := hEq
        rw [← hEq'] at hlt
        exact Nat.lt_irrefl _ hlt
      · simp only [List.mem_singleton, Prod.mk.injEq] at hr
        exact hne hr.1.symm
    | none =>
      rw [get_or_init_miss_fst h2, get_or_init_miss_fst h1, get_or_init_miss_next h1]
      simp

theorem get_or_init_increasing {m : MySelect} {s1 s2 : Source}
    (h1 : findAlias s1 m.extra = none)
    (h2 : findAlias s2 (m.get_or_init s1).2.extra = none) :
    (m.get_or_init s1).1.idx < ((m.get_or_init s1).2.get_or_init s2).1.idx := by
  rw [get_or_init_miss_fst h1, get_or_init_miss_fst h2, get_or_init_miss_next h1]
  exact Nat.lt_succ_self _

/-- Claim C1: for one Builder Context, requesting the alias of a
structurally equal join Source Specification twice through `get_join`, or
of an aggregate Source Specification twice through `get_aggr`, returns the
identical alias the second time, leaves the state untouched, and the
source stands recorded for emission exactly once. -/
theorem get_join_get_aggr_dedup_idempotent
    (T : TableInfo) (e : SimpleExpr) (stmt : SelectStatement)
    (conds : List (Field × SimpleExpr)) (m : MySelect)
    (hj : countSource (joinSource T e) m.extra = 0)
    (ha : countSource (aggrSource stmt conds) m.extra = 0) :
    ((ValueBuilder.get_join T e (ValueBuilder.get_join T e m).2).1 =
        (ValueBuilder.get_join T e m).1 ∧
      (ValueBuilder.get_join T e (ValueBuilder.get_join T e m).2).2 =
        (ValueBuilder.get_join T e m).2 ∧
      countSource (joinSource T e) (ValueBuilder.get_join T e m).2.extra = 1) ∧
    ((ValueBuilder.get_aggr stmt conds (ValueBuilder.get_aggr stmt conds m).2).1 =
        (ValueBuilder.get_aggr stmt conds m).1 ∧
      (ValueBuilder.get_aggr stmt conds (ValueBuilder.get_aggr stmt conds m).2).2 =
        (ValueBuilder.get_aggr stmt conds m).2 ∧
      countSource (aggrSource stmt conds) (ValueBuilder.get_aggr stmt conds m).2.extra = 1) := by
  refine ⟨⟨?_, ?_, ?_⟩, ?_, ?_, ?_⟩
  · exact congrArg Prod.fst (get_or_init_idem m (joinSource T e))
  · exact congrArg Prod.snd (get_or_init_idem m (joinSource T e))
  · exact countSource_after_miss (countSource_eq_zero.mp hj)
  · exact congrArg Prod.fst (get_or_init_idem m (aggrSource stmt conds))
  · exact congrArg Prod.snd (get_or_init_idem m (aggrSource stmt conds))
  · exact countSource_after_miss (countSource_eq_zero.mp ha)

theorem get_join_get_aggr_dedup_idempotent_witness :
    countSource (joinSource ⟨"album", "id"⟩ (.value (.bigInt (some 5))))
        MySelect.empty.extra = 0 ∧
    countSource (aggrSource ⟨"SELECT count(*)"⟩ []) MySelect.empty.extra = 0 ∧
    countSource (joinSource ⟨"album", "id"⟩ (.value (.bigInt (some 5))))
        (ValueBuilder.get_join ⟨"album", "id"⟩ (.value (.bigInt (some 5)))
          MySelect.empty).2.extra = 1 :=
  ⟨by decide, by decide,
    ((get_join_get_aggr_dedup_idempotent ⟨"album", "id"⟩ (.value (.bigInt (some 5)))
      ⟨"SELECT count(*)"⟩ [] MySelect.empty (by decide) (by decide)).1).2.2⟩

/-- Claim C2: within one well-formed Builder Context, two requests through
`get_join` / `get_aggr` / `get_unique` whose Source Specifications are
structurally distinct receive distinct aliases, well-formedness is
preserved, and on successive cache misses the freshly allocated aliases
come out in strictly increasing order. -/
theorem distinct_sources_distinct_aliases
    (r1 r2 : Request) (m : MySelect) (hwf : m.WF)
    (hne : r1.source ≠ r2.source) :
    (r1.alias_of m).1 ≠ (r2.alias_of (r1.alias_of m).2).1 ∧
    (r1.alias_of m).2.WF ∧
    (r2.alias_of (r1.alias_of m).2).2.WF ∧
    (findAlias r1.source m.extra = none →
      findAlias r2.source (r1.alias_of m).2.extra = none →
      (r1.alias_of m).1.idx < (r2.alias_of (r1.alias_of m).2).1.idx) := by
  rw [alias_of_eq r1 m, alias_of_eq r2 ((m.get_or_init r1.source)).2]
  refine ⟨get_or_init_distinct hwf hne, wf_get_or_init _ hwf,
    wf_get_or_init _ (wf_get_or_init _ hwf), ?_⟩
  intro h1 h2
  exact get_or_init_increasing h1 h2

theorem distinct_sources_distinct_aliases_witness :
    MySelect.empty.WF ∧
    (Request.join ⟨"album", "id"⟩ (.value (.bigInt (some 1)))).source ≠
      (Request.aggr ⟨"SELECT count(*)"⟩ []).source ∧
    ((Request.join ⟨"album", "id"⟩ (.value (.bigInt (some 1)))).alias_of
        MySelect.empty).1 ≠
      ((Request.aggr ⟨"SELECT count(*)"⟩ []).alias_of
        ((Request.join ⟨"album", "id"⟩ (.value (.bigInt (some 1)))).alias_of
          MySelect.empty).2).1 :=
  ⟨wf_empty, by decide,
    (distinct_sources_distinct_aliases
      (Request.join ⟨"album", "id"⟩ (.value (.bigInt (some 1))))
      (Request.aggr ⟨"SELECT count(*)"⟩ []) MySelect.empty wf_empty (by decide)).1⟩

/-- Claim C3: an expression bridged to the next schema version through
`Expr::_migrate` builds exactly the same SQL expression, with the same
effect on the Builder Context, as the wrapped prior expression does
itself; the Migration Bridge performs no transformation of its own. -/
theorem migrate_renders_identical (e : DynTyped) (m : MySelect) :
    (Expr_migrate e).build_expr m = e.build_expr m := rfl

theorem get_unique_eq (T : TableInfo) (conds : List (String × SimpleExpr))
    (m : MySelect) :
    ValueBuilder.get_unique T conds m =
      (SimpleExpr.col (m.get_or_init (uniqueSource T conds)).1 T.ID,
        (m.get_or_init (uniqueSource T conds)).2) := rfl

/-- Claim C6: `get_unique::<T>` deduplicates through the same Source→Alias
cache as implicit joins — the specification it builds for conditions
`[(T::ID, e)]` is structurally equal to the one `get_join` builds for `e`,
so a unique lookup after the matching join reuses the join's alias and
changes nothing — and it returns the scalar expression projecting `T::ID`
from that alias, not the alias itself. -/
theorem get_unique_shares_join_cache (T : TableInfo)
    (conds : List (String × SimpleExpr)) (e : SimpleExpr) (m : MySelect) :
    (ValueBuilder.get_unique T conds m =
      (SimpleExpr.col (m.get_or_init (uniqueSource T conds)).1 T.ID,
        (m.get_or_init (uniqueSource T conds)).2)) ∧
    (uniqueSource T [(T.ID, e)] = joinSource T e) ∧
    (ValueBuilder.get_unique T [(T.ID, e)] (ValueBuilder.get_join T e m).2 =
      (SimpleExpr.col (ValueBuilder.get_join T e m).1 T.ID,
        (ValueBuilder.get_join T e m).2)) := by
  refine ⟨get_unique_eq T conds m, rfl, ?_⟩
  rw [get_unique_eq]
  have hsrc : uniqueSource T [(T.ID, e)] = joinSource T e := rfl
  rw [hsrc]
  simp only [ValueBuilder.get_join]
  rw [get_or_init_idem]

/-- Claim C7: the default `Typed::build_table` computes the node's scalar
SQL expression and delegates to `get_join::<T>`, i.e. it requests the
alias of the Source Specification "implicit join to `T::NAME` with the
single condition `T::ID` = the node's expression". -/
theorem build_table_default_delegates (T : TableInfo) (n : DynTyped) (m : MySelect) :
    build_table T n m =
      ValueBuilder.get_join T (n.build_expr m).1 (n.build_expr m).2 ∧
    build_table T n m =
      (n.build_expr m).2.get_or_init
        ⟨SourceKind.implicit T.NAME, [(Field.str T.ID, (n.build_expr m).1)]⟩ :=
  ⟨rfl, rfl⟩

/-- Claim C4: for every wrapped Domain Value Type with a nullable-capable
SQL form (i64, f64, String, Vec&lt;u8&gt;, bool), converting the absent value
renders the typed SQL NULL of the inner type's storage category, decoding
a stored SQL NULL through `Option<T>` yields absent again, and converting
a present value and decoding the stored literal round-trips to the
original value. -/
theorem nullable_round_trip :
    (∀ m : MySelect,
      (optionBuildExpr i64NullExpr none).build_expr m = (i64NullExpr, m) ∧
      (optionBuildExpr f64NullExpr none).build_expr m = (f64NullExpr, m) ∧
      (optionBuildExpr stringNullExpr none).build_expr m = (stringNullExpr, m) ∧
      (optionBuildExpr blobNullExpr none).build_expr m = (blobNullExpr, m) ∧
      (optionBuildExpr boolNullExpr none).build_expr m = (boolNullExpr, m)) ∧
    ((SqlValue.bigInt none).category = i64MyTyp.TYP ∧
      (SqlValue.double none).category = f64MyTyp.TYP ∧
      (SqlValue.strVal none).category = stringMyTyp.TYP ∧
      (SqlValue.bytes none).category = blobMyTyp.TYP ∧
      (SqlValue.boolVal none).category = boolMyTyp.TYP) ∧
    (option_from_sql i64_from_sql ValueRef.null = .ok none ∧
      option_from_sql f64_from_sql ValueRef.null = .ok none ∧
      option_from_sql string_from_sql ValueRef.null = .ok none ∧
      option_from_sql blob_from_sql ValueRef.null = .ok none ∧
      option_from_sql bool_from_sql ValueRef.null = .ok none) ∧
    (∀ (v : Int) (m : MySelect),
      (optionBuildExpr i64NullExpr (some (i64Typed v))).build_expr m =
        (.value (.bigInt (some v)), m) ∧
      option_from_sql i64_from_sql (SqlValue.bigInt (some v)).toValueRef =
        .ok (some v)) ∧
    (∀ (v : F64) (m : MySelect),
      (optionBuildExpr f64NullExpr (some (f64Typed v))).build_expr m =
        (.value (.double (some v)), m) ∧
      option_from_sql f64_from_sql (SqlValue.double (some v)).toValueRef =
        .ok (some v)) ∧
    (∀ (s : String) (m : MySelect),
      (optionBuildExpr stringNullExpr (some (stringTyped s))).build_expr m =
        (.value (.strVal (some s)), m) ∧
      option_from_sql string_from_sql (SqlValue.strVal (some s)).toValueRef =
        .ok (some s)) ∧
    (∀ (b : List Nat) (m : MySelect),
      (optionBuildExpr blobNullExpr (some (blobTyped b))).build_expr m =
        (.value (.bytes (some b)), m) ∧
      option_from_sql blob_from_sql (SqlValue.bytes (some b)).toValueRef =
        .ok (some b)) ∧
    (∀ (b : Bool) (m : MySelect),
      (optionBuildExpr boolNullExpr (some (boolTyped b))).build_expr m =
        (.value (.boolVal (some b)), m) ∧
      option_from_sql bool_from_sql (SqlValue.boolVal (some b)).toValueRef =
        .ok (some b)) := by
  refine ⟨fun m => ⟨rfl, rfl, rfl, rfl, rfl⟩, ⟨rfl, rfl, rfl, rfl, rfl⟩,
    ⟨rfl, rfl, rfl, rfl, rfl⟩, ?_, ?_, ?_, ?_, ?_⟩
  · exact fun v m => ⟨rfl, rfl⟩
  · exact fun v m => ⟨rfl, rfl⟩
  · exact fun s m => ⟨rfl, rfl⟩
  · exact fun b m => ⟨rfl, rfl⟩
  · intro b m
    refine ⟨rfl, ?_⟩
    cases b <;> rfl

/-- Claim C5: the scalar decoders return the stored value unchanged when
the raw value's storage class matches, and fail with the decode error —
never a silently wrong value — exactly when it does not. -/
theorem decode_mismatch_errors :
    (∀ v : ValueRef,
      i64_from_sql v = .error .invalidType ↔ v.data_type ≠ RusqliteType.integer) ∧
    (∀ v : ValueRef,
      f64_from_sql v = .error .invalidType ↔ v.data_type ≠ RusqliteType.real) ∧
    (∀ v : ValueRef,
      string_from_sql v = .error .invalidType ↔ v.data_type ≠ RusqliteType.text) ∧
    (∀ v : ValueRef,
      blob_from_sql v = .error .invalidType ↔ v.data_type ≠ RusqliteType.blob) ∧
    (∀ i : Int, i64_from_sql (.integer i) = .ok i) ∧
    (∀ r : F64, f64_from_sql (.real r) = .ok r) ∧
    (∀ s : String, string_from_sql (.text s) = .ok s) ∧
    (∀ b : List Nat, blob_from_sql (.blob b) = .ok b) := by
  refine ⟨?_, ?_, ?_, ?_, fun _ => rfl, fun _ => rfl, fun _ => rfl, fun _ => rfl⟩ <;>
    intro v <;>
    cases v <;>
    simp [i64_from_sql, f64_from_sql, string_from_sql, blob_from_sql,
      ValueRef.as_i64, ValueRef.as_f64, ValueRef.as_str, ValueRef.as_blob,
      ValueRef.data_type]

theorem decode_mismatch_errors_witness :
    i64_from_sql (.text "not a number") = .error .invalidType :=
  (decode_mismatch_errors.1 (.text "not a number")).mpr (by decide)

/-- Claim C9: decoding a bool succeeds on every raw integer value,
yielding true exactly for the non-zero integers (not just 0 and 1), and
rejects raw values of any other storage class with a decode error. -/
theorem bool_decode_nonzero :
    (∀ i : Int, bool_from_sql (.integer i) = .ok (decide (i ≠ 0))) ∧
    (∀ i : Int, bool_from_sql (.integer i) = .ok true ↔ i ≠ 0) ∧
    (bool_from_sql (.integer 2) = .ok true) ∧
    (∀ v : ValueRef, v.data_type ≠ RusqliteType.integer →
      bool_from_sql v = .error .invalidType) := by
  refine ⟨fun i => rfl, ?_, rfl, ?_⟩
  · intro i
    simp [bool_from_sql, ValueRef.as_i64, Except.map]
  · intro v hv
    cases v <;>
      simp [bool_from_sql, ValueRef.as_i64, ValueRef.data_type, Except.map] at hv ⊢

theorem bool_decode_nonzero_witness :
    ValueRef.data_type (.text "x") ≠ RusqliteType.integer ∧
    bool_from_sql (.text "x") = .error .invalidType :=
  ⟨by decide, bool_decode_nonzero.2.2.2 (.text "x") (by decide)⟩

/-- Claim C10: `Option<T>` decodes to absent exactly when the raw value is
a SQL NULL — without ever consulting the inner decoder in that case — so a
nested `Option<Option<T>>` can never decode to `Some(None)`. -/
theorem option_decode_null_iff :
    (∀ (α : Type) (f : ValueRef → Except DecodeError α),
      option_from_sql f ValueRef.null = .ok none) ∧
    (∀ (α : Type) (f : ValueRef → Except DecodeError α) (v : ValueRef),
      option_from_sql f v = .ok none ↔ v = ValueRef.null) ∧
    (∀ (α : Type) (f : ValueRef → Except DecodeError α) (v : ValueRef),
      option_from_sql (option_from_sql f) v ≠ .ok (some none)) := by
  refine ⟨fun α f => rfl, ?_, ?_⟩
  · intro α f v
    cases v <;>
      simp [option_from_sql, ValueRef.data_type] <;>
      rename_i x <;>
      cases f _ <;> simp [Except.map]
  · intro α f v
    cases v with
    | null => simp [option_from_sql, ValueRef.data_type]
    | integer i =>
      simp only [option_from_sql, ValueRef.data_type]
      cases f (.integer i) <;> simp [Except.map]
    | real r =>
      simp only [option_from_sql, ValueRef.data_type]
      cases f (.real r) <;> simp [Except.map]
    | text s =>
      simp only [option_from_sql, ValueRef.data_type]
      cases f (.text s) <;> simp [Except.map]
    | blob b =>
      simp only [option_from_sql, ValueRef.data_type]
      cases f (.blob b) <;> simp [Except.map]

theorem option_decode_null_iff_witness :
    option_from_sql (option_from_sql i64_from_sql) (ValueRef.integer 7) ≠
      .ok (some none) :=
  option_decode_null_iff.2.2 Int i64_from_sql (ValueRef.integer 7)

/-- Claim C8: converting `Option<T>` yields the nullable-wrapped
expression type — NULLABLE set, storage category and foreign-key
descriptor inherited — and no other conversion of the layer changes
nullability: the base scalar conversions produce non-nullable types,
reference and identity conversions preserve the type, and the only
nullable-to-non-nullable re-typing, `assume_expr`, is an explicit
operation outside the conversion layer that leaves the rendered SQL
untouched. -/
theorem conversion_nullability :
    (∀ c : ConvSource, convTyp (.option c) = optionMyTyp (convTyp c)) ∧
    (∀ c : ConvSource, (convTyp (.option c)).NULLABLE = true ∧
      (convTyp (.option c)).TYP = (convTyp c).TYP ∧
      (convTyp (.option c)).FK = (convTyp c).FK) ∧
    (∀ t : MyTypConsts, convTyp (.expr t) = t) ∧
    (∀ c : ConvSource, convTyp (.ref c) = convTyp c) ∧
    (∀ c : ConvSource, (convTyp c).NULLABLE = nullableSource c) ∧
    (∀ (e : DynTyped) (m : MySelect), (assume_expr e).build_expr m = e.build_expr m) := by
  refine ⟨fun c => rfl, fun c => ⟨rfl, rfl, rfl⟩, fun t => rfl, fun c => rfl, ?_,
    fun e m => rfl⟩
  intro c
  induction c <;>
    simp_all [convTyp, nullableSource, optionMyTyp, i64MyTyp, f64MyTyp,
      boolMyTyp, stringMyTyp, blobMyTyp]

end RustQuery
